import Mathlib

/-!
Shallow embedding of `src/util/virstoragefile.c` (libvirt storage-source
utilities): the symlink-aware path canonicalizer, the backing-store string
parser, the storage-source classification predicates, default-port
normalization, and cookie validation.

Machine integers of the C code are modelled as `Nat` (no arithmetic in the
embedded fragment overflows), `char *` out-parameters plus status codes as
`Option`, and the readlink callback as a function into a three-way sum.
-/

set_option maxRecDepth 10000

namespace VirStorage

/-- Outcome of the caller-supplied readlink callback of
`virStorageFileCanonicalizePath`: in C a positive return means the queried
path is not a symlink, `0` means it is a symlink with the given target
(returned through `linkpath`), and a negative return is a callback failure. -/
inductive ResolveResult where
  | notLink
  | link (target : String)
  | err
deriving DecidableEq

/-- Result of `virStorageFileCanonicalizePath`: the C function returns the
canonicalized string, or NULL after reporting `ELOOP` (a resolution cycle) or
after a callback failure.  `fuelOut` marks exhaustion of the step budget of
this embedding; the C loop has no budget and need not terminate for every
callback. -/
inductive CanonResult where
  | ok (s : String)
  | loopErr
  | cbErr
  | fuelOut
deriving DecidableEq

/-- Splitting a character list at every `/`, keeping empty tokens
(the behaviour of `g_strsplit` on a non-empty string). -/
def splitSlashChars : List Char → List (List Char)
  | [] => [[]]
  | c :: cs =>
    if c = '/' then [] :: splitSlashChars cs
    else
      match splitSlashChars cs with
      | [] => [[c]]
      | t :: ts => (c :: t) :: ts

/-- `virStringSplitCount(path, "/", 0)` as used by the canonicalizer:
splitting the empty string yields no tokens, otherwise the string is cut at
every `/`, keeping empty tokens. -/
def splitSlash (s : String) : List String :=
  if s = "" then [] else (splitSlashChars s.data).map String.mk

/-- The "skip slashes" loops of `virStorageFileCanonicalizePath`: delete every
empty component. -/
def removeEmpty (components : List String) : List String :=
  components.filter (fun c => c ≠ "")

/-- `virStorageFileCanonicalizeFormatPath`: emit one `/` for `beginSlash`, one
more for `beginDoubleSlash`, then the components joined by `/`; an empty
buffer yields the empty string. -/
def virStorageFileCanonicalizeFormatPath (components : List String)
    (beginSlash beginDoubleSlash : Bool) : String :=
  (if beginSlash then "/" else "") ++
    (if beginDoubleSlash then "/" else "") ++
    String.intercalate "/" components

/-- `path[0] == '/'`. -/
def beginSlashOf (p : String) : Bool :=
  match p.data with
  | '/' :: _ => true
  | _ => false

/-- `path[0] == '/' && path[1] == '/' && path[2] != '/'`; the C string is
NUL-terminated, so the two-character string `"//"` also satisfies
`path[2] != '/'`. -/
def beginDoubleSlashOf (p : String) : Bool :=
  match p.data with
  | '/' :: '/' :: '/' :: _ => false
  | '/' :: '/' :: _ => true
  | _ => false

/-- `virStorageFileCanonicalizeInjectSymlink`: split the symlink target on `/`
and insert the tokens, in order, starting at position `pos`. -/
def virStorageFileCanonicalizeInjectSymlink (path : String) (pos : Nat)
    (components : List String) : List String :=
  components.take pos ++ splitSlash path ++ components.drop pos

/-- The main `while (i < ncomponents)` loop of
`virStorageFileCanonicalizePath`, one fuel unit per iteration.  State:
current component list, cursor `i`, the two leading-slash markers, and the
per-call cycle-detection set (`cycle`, a set of already-resolved prefix
strings). -/
def canonLoop (cb : String → ResolveResult) :
    Nat → List String → Nat → Bool → Bool → List String → CanonResult
  | 0, _, _, _, _, _ => .fuelOut
  | fuel + 1, components, i, beginSlash, beginDoubleSlash, cycle =>
    if h : i < components.length then
      if components[i] = "." ∧ (beginSlash = true ∨ components.length > 1) then
        canonLoop cb fuel (components.eraseIdx i) i beginSlash beginDoubleSlash cycle
      else if components[i] = ".." then
        if beginSlash = false ∧ (i = 0 ∨ components[i-1]! = "..") then
          canonLoop cb fuel components (i+1) beginSlash beginDoubleSlash cycle
        else if i = 0 then
          canonLoop cb fuel (components.eraseIdx 0) 0 beginSlash beginDoubleSlash cycle
        else
          canonLoop cb fuel ((components.eraseIdx i).eraseIdx (i-1)) (i-1)
            beginSlash beginDoubleSlash cycle
      else
        let currentpath := virStorageFileCanonicalizeFormatPath
          (components.take (i+1)) beginSlash beginDoubleSlash
        match cb currentpath with
        | .err => .cbErr
        | .notLink =>
          canonLoop cb fuel components (i+1) beginSlash beginDoubleSlash cycle
        | .link target =>
          if currentpath ∈ cycle then
            .loopErr
          else if beginSlashOf target = true then
            canonLoop cb fuel
              (removeEmpty (virStorageFileCanonicalizeInjectSymlink target 0
                (components.drop (i+1))))
              0 true (beginDoubleSlashOf target) (currentpath :: cycle)
          else
            canonLoop cb fuel
              (removeEmpty (virStorageFileCanonicalizeInjectSymlink target i
                (components.eraseIdx i)))
              i beginSlash beginDoubleSlash (currentpath :: cycle)
    else
      .ok (virStorageFileCanonicalizeFormatPath components beginSlash beginDoubleSlash)

/-- `virStorageFileCanonicalizePath`: classify the leading slashes, split on
`/`, discard empty components, then run the main loop with an empty
cycle-detection set. -/
def virStorageFileCanonicalizePath (fuel : Nat) (path : String)
    (cb : String → ResolveResult) : CanonResult :=
  canonLoop cb fuel (removeEmpty (splitSlash path)) 0
    (beginSlashOf path) (beginDoubleSlashOf path) []

/-! ## Backing-store specifier parser -/

/-- Splitting a character list at the first `[`: the part before the bracket,
and `some` remainder when a bracket was found. -/
def splitFirstBracketChars : List Char → List Char × Option (List Char)
  | [] => ([], none)
  | c :: cs =>
    if c = '[' then ([], some cs)
    else
      match splitFirstBracketChars cs with
      | (a, b) => (c :: a, b)

/-- Modelled from the spec: `virStringSplitCount(str, "[", 2, ...)` (the
helper lives outside this file) "splits `s` on the first `\"[\"`" — the
target part before the bracket and, when a bracket is present, the raw
remainder after it. -/
def splitFirstBracket (s : String) : String × Option String :=
  match splitFirstBracketChars s.data with
  | (a, b) => (String.mk a, b.map String.mk)

/-- Leading decimal digits of a character list, and the rest. -/
def takeDigits : List Char → List Char × List Char
  | [] => ([], [])
  | c :: cs =>
    if c.isDigit then
      match takeDigits cs with
      | (d, r) => (c :: d, r)
    else ([], c :: cs)

/-- Numeric value of a decimal digit string. -/
def decimalValue (ds : List Char) : Nat :=
  ds.foldl (fun acc c => acc * 10 + (c.toNat - 48)) 0

/-- Modelled from the spec: `virStrToLong_uip(s, &suffix, 10, &idx)` (the
helper lives outside this file) parses a leading nonnegative decimal integer
— "a bracket must be followed by exactly `\"<digits>\"]\"`", grammar
`<target>[<nonnegative-integer>]` — yielding the value and the unparsed
suffix, and failing when no digit is present. -/
def parseDecimal (s : String) : Option (Nat × String) :=
  match takeDigits s.data with
  | ([], _) => none
  | (ds, r) => some (decimalValue ds, String.mk r)

/-- `virStorageFileParseBackingStoreStr`: split on the first `[`; without a
bracket the whole string is the target and the index is `0`; with a bracket
the remainder must be exactly `<digits>]`.  `none` models the `-1` error
return, `some (target, chainIndex)` the `0` return with its out-parameters. -/
def virStorageFileParseBackingStoreStr (str : String) :
    Option (String × Nat) :=
  match splitFirstBracket str with
  | (target, none) => some (target, 0)
  | (target, some rest) =>
    match parseDecimal rest with
    | none => none
    | some (idx, suffix) =>
      if suffix = "]" then some (target, idx) else none

/-- `virStorageFileParseChainIndex`: `none`/NULL arguments and parser
failures all yield success with index `0`; a parsed non-zero index is an
error (`none`) exactly when the parsed target differs from `diskTarget`. -/
def virStorageFileParseChainIndex (diskTarget : Option String)
    (name : Option String) : Option Nat :=
  match name, diskTarget with
  | none, _ => some 0
  | _, none => some 0
  | some n, some dt =>
    match virStorageFileParseBackingStoreStr n with
    | none => some 0
    | some (target, idx) =>
      if idx = 0 then some 0
      else if target ≠ dt then none
      else some idx

/-! ## Storage-source data model -/

/-- `virStorageType`. -/
inductive VirStorageType where
  | none
  | file
  | block
  | dir
  | network
  | volume
  | nvme
  | last
deriving DecidableEq

/-- `virStorageNetProtocol`. -/
inductive VirStorageNetProtocol where
  | none
  | nbd
  | rbd
  | sheepdog
  | gluster
  | iscsi
  | http
  | https
  | ftp
  | ftps
  | tftp
  | ssh
  | vxhs
  | nfs
  | last
deriving DecidableEq

/-- `virStorageNetHostTransport`. -/
inductive VirStorageNetHostTransport where
  | tcp
  | unix
  | rdma
  | last
deriving DecidableEq

/-- `virTristateBool` (absent / yes / no). -/
inductive VirTristateBool where
  | absent
  | yes
  | no
deriving DecidableEq

/-- Modelled from the spec: `virPCIDeviceAddress` (defined outside this
file), "compared for equality field-by-field" by `virPCIDeviceAddressEqual`;
structural equality of the four address fields. -/
structure VirPCIDeviceAddress where
  domain : Nat
  bus : Nat
  slot : Nat
  function : Nat
deriving DecidableEq

/-- `virStorageNetHostDef`. -/
structure VirStorageNetHostDef where
  name : Option String
  port : Nat
  transport : VirStorageNetHostTransport
  socket : Option String
deriving DecidableEq

/-- `virStorageSourceNVMeDef`. -/
structure VirStorageSourceNVMeDef where
  namespc : Nat
  managed : VirTristateBool
  pciAddr : VirPCIDeviceAddress
deriving DecidableEq

/-- `virStorageSourcePoolDef`, restricted to the field the embedded
predicates read. -/
structure VirStorageSourcePoolDef where
  actualtype : VirStorageType
deriving DecidableEq

/-- `virStorageSource`, restricted to the fields the embedded predicates
read.  `encryption` and `perms` stand for the owned encryption and
permissions descriptors (defined outside this file); only their presence or
difference matters here, so they are abstracted to an opaque payload. -/
structure VirStorageSource where
  type : VirStorageType
  protocol : VirStorageNetProtocol
  path : Option String
  volume : Option String
  snapshot : Option String
  hosts : List VirStorageNetHostDef
  srcpool : Option VirStorageSourcePoolDef
  nvme : Option VirStorageSourceNVMeDef
  encryption : Option Nat
  perms : Option Nat
deriving DecidableEq

/-- `virStorageSourceGetActualType`: the declared type, unless the node is a
`volume` whose pool reference carries a resolved actual type other than
`none`. -/
def virStorageSourceGetActualType (d : VirStorageSource) : VirStorageType :=
  match d.srcpool with
  | some sp =>
    if d.type = VirStorageType.volume ∧ sp.actualtype ≠ VirStorageType.none then
      sp.actualtype
    else d.type
  | none => d.type

/-- `virStorageSourceIsLocalStorage`. -/
def virStorageSourceIsLocalStorage (src : VirStorageSource) : Bool :=
  match virStorageSourceGetActualType src with
  | .file | .block | .dir => true
  | .network | .volume | .nvme | .last | .none => false

/-- `virStorageSourceIsEmpty`. -/
def virStorageSourceIsEmpty (src : VirStorageSource) : Bool :=
  if virStorageSourceIsLocalStorage src = true ∧ src.path = none then true
  else if src.type = VirStorageType.none then true
  else if src.type = VirStorageType.network ∧
      src.protocol = VirStorageNetProtocol.none then true
  else false

/-- `virStorageSourceNVMeDefIsEqual`: both absent is equal, one absent is
not; otherwise namespace, managed flag and PCI address must all agree. -/
def virStorageSourceNVMeDefIsEqual :
    Option VirStorageSourceNVMeDef → Option VirStorageSourceNVMeDef → Bool
  | none, none => true
  | some _, none => false
  | none, some _ => false
  | some a, some b =>
    if a.namespc = b.namespc ∧ a.managed = b.managed ∧ a.pciAddr = b.pciAddr
    then true else false

/-- The host-array comparison loop of `virStorageSourceIsSameLocation`:
entry-wise equality of transport, port, name and socket. -/
def hostsMatch : List VirStorageNetHostDef → List VirStorageNetHostDef → Bool
  | [], [] => true
  | _, [] => false
  | [], _ => false
  | a :: as_, b :: bs =>
    if a.transport = b.transport ∧ a.port = b.port ∧ a.name = b.name ∧
        a.socket = b.socket
    then hostsMatch as_ bs else false

/-- `virStorageSourceIsSameLocation`. -/
def virStorageSourceIsSameLocation (a b : VirStorageSource) : Bool :=
  if virStorageSourceIsEmpty a = true ∧ virStorageSourceIsEmpty b = true then
    true
  else if virStorageSourceGetActualType a ≠ virStorageSourceGetActualType b then
    false
  else if a.path ≠ b.path ∨ a.volume ≠ b.volume ∨ a.snapshot ≠ b.snapshot then
    false
  else if a.type = VirStorageType.network ∧
      (a.protocol ≠ b.protocol ∨ a.hosts.length ≠ b.hosts.length) then
    false
  else if a.type = VirStorageType.network ∧ hostsMatch a.hosts b.hosts = false then
    false
  else if a.type = VirStorageType.nvme ∧
      virStorageSourceNVMeDefIsEqual a.nvme b.nvme = false then
    false
  else
    true

/-! ## Network default ports -/

/-- `virStorageSourceNetworkDefaultPort`. -/
def virStorageSourceNetworkDefaultPort : VirStorageNetProtocol → Nat
  | .http => 80
  | .https => 443
  | .ftp => 21
  | .ftps => 990
  | .tftp => 69
  | .sheepdog => 7000
  | .nbd => 10809
  | .ssh => 22
  | .iscsi => 3260
  | .gluster => 24007
  | .rbd => 0
  | .vxhs => 9999
  | .nfs => 0
  | .last => 0
  | .none => 0

/-- `virStorageSourceNetworkAssignDefaultPorts`: every TCP host entry with
port `0` receives the per-protocol default port. -/
def virStorageSourceNetworkAssignDefaultPorts (src : VirStorageSource) :
    VirStorageSource :=
  { src with
    hosts := src.hosts.map (fun h =>
      if h.transport = VirStorageNetHostTransport.tcp ∧ h.port = 0 then
        { h with port := virStorageSourceNetworkDefaultPort src.protocol }
      else h) }

/-! ## Cookie validation -/

/-- Modelled from the spec: `virStringHasChars` (defined outside this file)
— whether `s` contains any character of the blacklist. -/
def virStringHasChars (s : String) (chars : List Char) : Bool :=
  s.data.any (fun c => chars.contains c)

/-- `virStorageSourceCookieValueInvalidChars`: control bytes `0x01`–`0x1F`,
space, double quote, comma, semicolon, backslash. -/
def virStorageSourceCookieValueInvalidChars : List Char :=
  (List.range 31).map (fun n => Char.ofNat (n + 1)) ++
    [' ', '"', ',', ';', '\\']

/-- `virStorageSourceCookieNameInvalidChars`. -/
def virStorageSourceCookieNameInvalidChars : List Char :=
  ['(', ')', '<', '>', '@', ':', '/', '[', ']', '?', '=',
    Char.ofNat 123, Char.ofNat 125]

/-- `virStorageSourceNetCookieValidate` on a cookie's name and value:
non-empty name free of both blacklists; a value beginning with `"` must end
with `"` (the check reads `val[len - 1]`, which for a one-character value is
the same character as `val[0]`), and the surrounding quote pair, when
present, is stripped before the value blacklist check.  The C `val[0]` of an
empty value is the NUL terminator, never `'"'`. -/
def virStorageSourceNetCookieValidate (name value : String) : Bool :=
  if name = "" then false
  else if virStringHasChars name virStorageSourceCookieValueInvalidChars = true ∨
      virStringHasChars name virStorageSourceCookieNameInvalidChars = true then
    false
  else
    if value ≠ "" ∧ value.front = '"' then
      if value.back ≠ '"' then false
      else if virStringHasChars ((value.drop 1).dropRight 1)
          virStorageSourceCookieValueInvalidChars = true then false
      else true
    else
      if virStringHasChars value virStorageSourceCookieValueInvalidChars = true
      then false
      else true

/-! ## Helper lemmas -/

theorem getElem_append_length_cons (pre : List String) (c : String)
    (rest : List String) (h : pre.length < (pre ++ c :: rest).length) :
    (pre ++ c :: rest)[pre.length] = c := by
  induction pre with
  | nil => rfl
  | cons a as ih => simpa using ih (by simp)

theorem eraseIdx_append_length_cons (pre : List String) (c : String)
    (rest : List String) :
    (pre ++ c :: rest).eraseIdx pre.length = pre ++ rest := by
  induction pre with
  | nil => rfl
  | cons a as ih => simpa [List.eraseIdx] using ih

/-- Running the canonicalizer loop over components free of `.` and `..` with
a callback that never reports a symlink advances the cursor to the end and
reproduces the formatted component list. -/
theorem canonLoop_notLink_run (cb : String → ResolveResult)
    (hcb : ∀ s, cb s = ResolveResult.notLink) :
    ∀ (fuel : Nat) (cs : List String) (i : Nat) (bs bds : Bool)
      (cyc : List String),
      (∀ c ∈ cs, c ≠ "." ∧ c ≠ "..") → cs.length - i + 1 ≤ fuel →
      canonLoop cb fuel cs i bs bds cyc =
        CanonResult.ok (virStorageFileCanonicalizeFormatPath cs bs bds) := by
  intro fuel
  induction fuel with
  | zero => intro cs i bs bds cyc hcs hf; omega
  | succ f ih =>
    intro cs i bs bds cyc hcs hf
    by_cases h : i < cs.length
    · obtain ⟨hd, hdd⟩ := hcs cs[i] (List.getElem_mem h)
      rw [canonLoop, dif_pos h, if_neg (fun hc => hd hc.1), if_neg hdd]
      simp only [hcb]
      exact ih cs (i+1) bs bds cyc hcs (by omega)
    · rw [canonLoop, dif_neg h]

/-- Running the loop from cursor `i = |pre|` over remaining components free
of `..`, relative path, callback never a symlink: the remaining `.`
components are deleted, everything else is kept. -/
theorem canonLoop_relative_run (cb : String → ResolveResult)
    (hcb : ∀ s, cb s = ResolveResult.notLink) :
    ∀ (rest : List String) (fuel : Nat) (pre : List String) (i : Nat)
      (bds : Bool) (cyc : List String),
      pre ≠ [] → (∀ c ∈ rest, c ≠ "..") → i = pre.length →
      rest.length + 1 ≤ fuel →
      canonLoop cb fuel (pre ++ rest) i false bds cyc =
        CanonResult.ok (virStorageFileCanonicalizeFormatPath
          (pre ++ rest.filter (fun c => c ≠ ".")) false bds) := by
  intro rest
  induction rest with
  | nil =>
    intro fuel pre i bds cyc hpre hr hi hf
    obtain ⟨f, rfl⟩ : ∃ f, fuel = f + 1 := ⟨fuel - 1, by omega⟩
    rw [canonLoop, dif_neg (by simp [hi])]
    simp
  | cons c rest ih =>
    intro fuel pre i bds cyc hpre hr hi hf
    obtain ⟨f, rfl⟩ : ∃ f, fuel = f + 1 := ⟨fuel - 1, by omega⟩
    have hprelen : 1 ≤ pre.length := by
      cases pre with
      | nil => exact absurd rfl hpre
      | cons _ _ => simp
    have hlen : i < (pre ++ c :: rest).length := by simp [hi]
    have hget : (pre ++ c :: rest)[i] = c := by
      subst hi; exact getElem_append_length_cons pre c rest hlen
    have hflen : rest.length + 1 ≤ f := by
      simp only [List.length_cons] at hf; omega
    rw [canonLoop, dif_pos hlen]
    by_cases hc : c = "."
    · rw [if_pos ⟨by rw [hget, hc], Or.inr (by simp; omega)⟩]
      have herase : (pre ++ c :: rest).eraseIdx i = pre ++ rest := by
        subst hi; exact eraseIdx_append_length_cons pre c rest
      rw [herase, ih f pre i bds cyc hpre (fun x hx => hr x (by simp [hx])) hi
        hflen]
      simp [List.filter_cons, hc]
    · have hdd : c ≠ ".." := hr c (by simp)
      rw [if_neg (fun hcont => hc (by rw [← hget]; exact hcont.1)),
        if_neg (show ¬(pre ++ c :: rest)[i] = ".." by rw [hget]; exact hdd)]
      simp only [hcb]
      have hsplit : pre ++ c :: rest = (pre ++ [c]) ++ rest := by simp
      rw [hsplit, ih f (pre ++ [c]) (i+1) bds cyc (by simp)
        (fun x hx => hr x (by simp [hx])) (by simp [hi]) hflen]
      simp [List.filter_cons, hc]

/-- Running the loop inside the leading `..` run of a relative path: each of
those components is kept and the cursor advances past it. -/
theorem canonLoop_leading_dotdot (cb : String → ResolveResult)
    (hcb : ∀ s, cb s = ResolveResult.notLink) :
    ∀ (fuel : Nat) (k i : Nat) (rest : List String) (bds : Bool)
      (cyc : List String),
      1 ≤ k → i ≤ k → (∀ c ∈ rest, c ≠ "..") →
      (k - i) + rest.length + 1 ≤ fuel →
      canonLoop cb fuel (List.replicate k ".." ++ rest) i false bds cyc =
        CanonResult.ok (virStorageFileCanonicalizeFormatPath
          (List.replicate k ".." ++ rest.filter (fun c => c ≠ "."))
          false bds) := by
  intro fuel
  induction fuel with
  | zero => intros; omega
  | succ f ih =>
    intro k i rest bds cyc hk hik hrest hf
    rcases Nat.lt_or_ge i k with hlt | hge
    · have hlen : i < (List.replicate k ".." ++ rest).length := by simp; omega
      have hget : (List.replicate k ".." ++ rest)[i] = ".." := by
        rw [List.getElem_append_left (by simp; omega)]
        simp
      have hcond : i = 0 ∨ (List.replicate k ".." ++ rest)[i-1]! = ".." := by
        by_cases hi0 : i = 0
        · exact Or.inl hi0
        · refine Or.inr ?_
          have hb : i - 1 < (List.replicate k ".." ++ rest).length := by
            simp; omega
          rw [getElem!_pos (List.replicate k ".." ++ rest) (i-1) hb,
            List.getElem_append_left (by simp; omega)]
          simp
      rw [canonLoop, dif_pos hlen, if_neg (by simp [hget]), if_pos hget,
        if_pos ⟨rfl, hcond⟩]
      exact ih k (i+1) rest bds cyc hk (by omega) hrest (by omega)
    · have hik' : i = k := Nat.le_antisymm hik hge
      subst hik'
      exact canonLoop_relative_run cb hcb rest (f+1) (List.replicate i "..") i
        bds cyc (by simp; omega) hrest (by simp) (by omega)

/-! ## Claim theorems: path canonicalizer -/

/-- The mutual a/b symlink resolver of the loop-detection example:
`"/a"` is a symlink to `"b"` and `"/b"` a symlink to `"a"`. -/
def abResolver : String → ResolveResult := fun p =>
  if p = "/a" then ResolveResult.link "b"
  else if p = "/b" then ResolveResult.link "a"
  else ResolveResult.notLink

/-- C1: the cycle-detection set is keyed by the exact pre-resolution prefix
string: whenever the callback reports a symlink for the current prefix and
that prefix string is already in the per-call set, the whole canonicalization
fails with the loop error; and with the resolver mapping `"/a" ↦ b`,
`"/b" ↦ a`, canonicalizing `"/a"` terminates with the loop error. -/
theorem virStorageFileCanonicalizePath_cycle_detection :
    (∀ (cb : String → ResolveResult) (fuel : Nat) (cs : List String) (i : Nat)
       (bs bds : Bool) (cyc : List String) (h : i < cs.length)
       (t : String),
       cs[i] ≠ "." → cs[i] ≠ ".." →
       cb (virStorageFileCanonicalizeFormatPath (cs.take (i+1)) bs bds) =
         ResolveResult.link t →
       virStorageFileCanonicalizeFormatPath (cs.take (i+1)) bs bds ∈ cyc →
       canonLoop cb (fuel+1) cs i bs bds cyc = CanonResult.loopErr) ∧
    virStorageFileCanonicalizePath 10 "/a" abResolver = CanonResult.loopErr := by
  constructor
  · intro cb fuel cs i bs bds cyc h t hd hdd hlink hmem
    rw [canonLoop, dif_pos h, if_neg (fun hc => hd hc.1), if_neg hdd]
    simp only [hlink, if_pos hmem]
  · decide

/-- Witness for C1: the loop-detection step at a concrete state (component
`"a"`, prefix `"/a"` already recorded), and the concrete a/b cycle. -/
theorem virStorageFileCanonicalizePath_cycle_detection_witness :
    canonLoop abResolver 5 ["a"] 0 true false ["/a"] = CanonResult.loopErr ∧
    virStorageFileCanonicalizePath 10 "/a" abResolver = CanonResult.loopErr :=
  ⟨virStorageFileCanonicalizePath_cycle_detection.1 abResolver 4 ["a"] 0 true
      false ["/a"] (by decide) "b" (by decide) (by decide) (by decide)
      (by decide),
    virStorageFileCanonicalizePath_cycle_detection.2⟩

/-- A path is canonical when its nonempty `/`-separated components contain no
`.` or `..` and re-joining them behind the leading slash markers reproduces
the path verbatim (no redundant separators). -/
def IsCanonicalPath (p : String) : Prop :=
  (∀ c ∈ removeEmpty (splitSlash p), c ≠ "." ∧ c ≠ "..") ∧
    virStorageFileCanonicalizeFormatPath (removeEmpty (splitSlash p))
      (beginSlashOf p) (beginDoubleSlashOf p) = p

instance (p : String) : Decidable (IsCanonicalPath p) := by
  unfold IsCanonicalPath; infer_instance

/-- C2: on an already-canonical path, with a callback reporting not-a-symlink
for every queried prefix, canonicalization returns the input unchanged. -/
theorem virStorageFileCanonicalizePath_canonical_noop
    (p : String) (cb : String → ResolveResult) (fuel : Nat)
    (hcb : ∀ s, cb s = ResolveResult.notLink)
    (hcanon : IsCanonicalPath p)
    (hfuel : (removeEmpty (splitSlash p)).length + 1 ≤ fuel) :
    virStorageFileCanonicalizePath fuel p cb = CanonResult.ok p := by
  unfold virStorageFileCanonicalizePath
  rw [canonLoop_notLink_run cb hcb fuel (removeEmpty (splitSlash p)) 0
    (beginSlashOf p) (beginDoubleSlashOf p) [] hcanon.1 (by omega)]
  rw [hcanon.2]

/-- Witness for C2 at the canonical path `"/a/b"`. -/
theorem virStorageFileCanonicalizePath_canonical_noop_witness :
    virStorageFileCanonicalizePath 3 "/a/b" (fun _ => ResolveResult.notLink) =
      CanonResult.ok "/a/b" :=
  virStorageFileCanonicalizePath_canonical_noop "/a/b"
    (fun _ => ResolveResult.notLink) 3 (fun _ => rfl) (by decide) (by decide)

/-- C3: the two `..` rules of the loop — kept (cursor advances) when the path
is relative and the component is first or preceded by a kept `..`, removed
together with the preceding kept component (cursor steps back) otherwise —
and the resulting run theorem: a relative path with a leading `..` run and a
callback reporting no symlinks keeps the leading run untouched while internal
`.` components and redundant separators are collapsed. -/
theorem virStorageFileCanonicalizePath_dotdot_rules :
    (∀ (cb : String → ResolveResult) (fuel : Nat) (cs : List String) (i : Nat)
       (bds : Bool) (cyc : List String) (h : i < cs.length),
       cs[i] = ".." → (i = 0 ∨ cs[i-1]! = "..") →
       canonLoop cb (fuel+1) cs i false bds cyc =
         canonLoop cb fuel cs (i+1) false bds cyc) ∧
    (∀ (cb : String → ResolveResult) (fuel : Nat) (cs : List String) (i : Nat)
       (bs bds : Bool) (cyc : List String) (h : i < cs.length),
       cs[i] = ".." → ¬(bs = false ∧ (i = 0 ∨ cs[i-1]! = "..")) →
       canonLoop cb (fuel+1) cs i bs bds cyc =
         if i = 0 then canonLoop cb fuel (cs.eraseIdx 0) 0 bs bds cyc
         else canonLoop cb fuel ((cs.eraseIdx i).eraseIdx (i-1)) (i-1)
           bs bds cyc) ∧
    (∀ (p : String) (cb : String → ResolveResult) (fuel k : Nat)
       (rest : List String),
       (∀ s, cb s = ResolveResult.notLink) → 1 ≤ k →
       (∀ c ∈ rest, c ≠ "..") →
       removeEmpty (splitSlash p) = List.replicate k ".." ++ rest →
       beginSlashOf p = false →
       k + rest.length + 1 ≤ fuel →
       virStorageFileCanonicalizePath fuel p cb =
         CanonResult.ok (virStorageFileCanonicalizeFormatPath
           (List.replicate k ".." ++ rest.filter (fun c => c ≠ "."))
           false (beginDoubleSlashOf p))) := by
  refine ⟨?_, ?_, ?_⟩
  · intro cb fuel cs i bds cyc h hdd hcond
    rw [canonLoop, dif_pos h, if_neg (by simp [hdd]), if_pos hdd,
      if_pos ⟨rfl, hcond⟩]
  · intro cb fuel cs i bs bds cyc h hdd hcond
    rw [canonLoop, dif_pos h, if_neg (by simp [hdd]), if_pos hdd,
      if_neg hcond]
  · intro p cb fuel k rest hcb hk hrest hsplit hbs hfuel
    unfold virStorageFileCanonicalizePath
    rw [hsplit, hbs]
    exact canonLoop_leading_dotdot cb hcb fuel k 0 rest (beginDoubleSlashOf p)
      [] hk (by omega) hrest (by omega)

/-- Witness for C3: the keep rule at `["..", "a"]` cursor `0`, the removal
rule at `["a", ".."]` cursor `1`, and the run on `"../.././a//b"`, which
canonicalizes to `"../../a/b"`. -/
theorem virStorageFileCanonicalizePath_dotdot_rules_witness :
    canonLoop (fun _ => ResolveResult.notLink) 5 ["..", "a"] 0 false false [] =
      canonLoop (fun _ => ResolveResult.notLink) 4 ["..", "a"] 1 false false [] ∧
    canonLoop (fun _ => ResolveResult.notLink) 5 ["a", ".."] 1 true false [] =
      (if (1 : Nat) = 0 then
        canonLoop (fun _ => ResolveResult.notLink) 4
          ((["a", ".."] : List String).eraseIdx 0) 0 true false []
      else
        canonLoop (fun _ => ResolveResult.notLink) 4
          (((["a", ".."] : List String).eraseIdx 1).eraseIdx 0) 0
          true false []) ∧
    virStorageFileCanonicalizePath 6 "../.././a//b"
      (fun _ => ResolveResult.notLink) = CanonResult.ok "../../a/b" :=
  ⟨virStorageFileCanonicalizePath_dotdot_rules.1 (fun _ => ResolveResult.notLink)
      4 ["..", "a"] 0 false [] (by decide) (by decide) (Or.inl rfl),
    virStorageFileCanonicalizePath_dotdot_rules.2.1
      (fun _ => ResolveResult.notLink) 4 ["a", ".."] 1 true false []
      (by decide) (by decide) (by decide),
    virStorageFileCanonicalizePath_dotdot_rules.2.2 "../.././a//b"
      (fun _ => ResolveResult.notLink) 6 2 [".", "a", "b"] (fun _ => rfl)
      (by decide) (by decide) (by decide) (by decide) (by decide)⟩

/-! ## Claim theorems: backing-store specifier parser -/

theorem splitFirstBracketChars_of_not_mem (cs : List Char) (h : '[' ∉ cs) :
    splitFirstBracketChars cs = (cs, none) := by
  induction cs with
  | nil => rfl
  | cons c cs ih =>
    have hc : c ≠ '[' := fun hc => h (hc ▸ List.mem_cons_self c cs)
    rw [splitFirstBracketChars, if_neg hc,
      ih (fun hm => h (List.mem_cons_of_mem c hm))]

theorem splitFirstBracketChars_append (t : List Char) (h : '[' ∉ t)
    (rest : List Char) :
    splitFirstBracketChars (t ++ '[' :: rest) = (t, some rest) := by
  induction t with
  | nil => simp [splitFirstBracketChars]
  | cons c cs ih =>
    have hc : c ≠ '[' := fun hc => h (hc ▸ List.mem_cons_self c cs)
    rw [List.cons_append, splitFirstBracketChars, if_neg hc,
      ih (fun hm => h (List.mem_cons_of_mem c hm))]

theorem takeDigits_split (cs : List Char) :
    cs = (takeDigits cs).1 ++ (takeDigits cs).2 ∧
      ∀ c ∈ (takeDigits cs).1, c.isDigit = true := by
  induction cs with
  | nil => exact ⟨rfl, by simp [takeDigits]⟩
  | cons c cs ih =>
    by_cases hc : c.isDigit
    · simpa [takeDigits, hc] using ⟨ih.1, ih.2⟩
    · simp [takeDigits, hc]

theorem takeDigits_digits_append (ds : List Char)
    (h : ∀ c ∈ ds, c.isDigit = true) :
    takeDigits (ds ++ [']']) = (ds, [']']) := by
  induction ds with
  | nil => rfl
  | cons c cs ih =>
    rw [List.cons_append, takeDigits, if_pos (h c (List.mem_cons_self c cs)),
      ih (fun x hx => h x (List.mem_cons_of_mem c hx))]

/-- C4: the parser splits on the first `[`: without a bracket it succeeds
with index `0` and the whole string as target; a bracket followed by exactly
a nonempty digit string and `]` succeeds with that number; any other
bracketed remainder fails.  `"vda[1]" ↦ ("vda", 1)`, `"sda" ↦ ("sda", 0)`,
`"vda[x]"` fails. -/
theorem virStorageFileParseBackingStoreStr_spec :
    (∀ s : String, '[' ∉ s.data →
       virStorageFileParseBackingStoreStr s = some (s, 0)) ∧
    (∀ t ds : List Char, '[' ∉ t → ds ≠ [] → (∀ c ∈ ds, c.isDigit = true) →
       virStorageFileParseBackingStoreStr ⟨t ++ '[' :: (ds ++ [']'])⟩ =
         some (⟨t⟩, decimalValue ds)) ∧
    (∀ t rest : List Char, '[' ∉ t →
       (∀ ds : List Char, (∀ c ∈ ds, c.isDigit = true) → ds ≠ [] →
         rest ≠ ds ++ [']']) →
       virStorageFileParseBackingStoreStr ⟨t ++ '[' :: rest⟩ = none) ∧
    (virStorageFileParseBackingStoreStr "vda[1]" = some ("vda", 1) ∧
     virStorageFileParseBackingStoreStr "sda" = some ("sda", 0) ∧
     virStorageFileParseBackingStoreStr "vda[x]" = none) := by
  refine ⟨?_, ?_, ?_, by decide, by decide, by decide⟩
  · intro s h
    simp [virStorageFileParseBackingStoreStr, splitFirstBracket,
      splitFirstBracketChars_of_not_mem s.data h]
  · intro t ds ht hds hdig
    obtain ⟨d, ds', rfl⟩ : ∃ d ds', ds = d :: ds' := by
      cases ds with
      | nil => exact absurd rfl hds
      | cons d ds' => exact ⟨d, ds', rfl⟩
    have htd : takeDigits (d :: (ds' ++ [']'])) = (d :: ds', [']']) := by
      simpa using takeDigits_digits_append (d :: ds') hdig
    simp [virStorageFileParseBackingStoreStr, splitFirstBracket,
      splitFirstBracketChars_append t ht, parseDecimal, htd]
  · intro t rest ht hno
    have hsplit := takeDigits_split rest
    rcases htd : takeDigits rest with ⟨ds, r⟩
    rw [htd] at hsplit
    cases hds : ds with
    | nil =>
      simp [virStorageFileParseBackingStoreStr, splitFirstBracket,
        splitFirstBracketChars_append t ht, parseDecimal, htd, hds]
    | cons d ds' =>
      subst hds
      have hrne : String.mk r ≠ "]" := by
        intro hr
        have hr' : r = [']'] := congrArg String.data hr
        exact hno (d :: ds') hsplit.2 (by simp)
          (by rw [hsplit.1, hr'])
      simp [virStorageFileParseBackingStoreStr, splitFirstBracket,
        splitFirstBracketChars_append t ht, parseDecimal, htd, hrne]

/-- Witness for C4: the no-bracket case at `"sda"`, the digits case at
`"vda" ++ "[" ++ "1" ++ "]"`, the failure case at remainder `"x]"`, and the
three concrete evaluations. -/
theorem virStorageFileParseBackingStoreStr_spec_witness :
    virStorageFileParseBackingStoreStr "sda" = some ("sda", 0) ∧
    virStorageFileParseBackingStoreStr
      ⟨['v', 'd', 'a'] ++ '[' :: (['1'] ++ [']'])⟩ =
      some (⟨['v', 'd', 'a']⟩, decimalValue ['1']) ∧
    virStorageFileParseBackingStoreStr ⟨['v', 'd', 'a'] ++ '[' :: ['x', ']']⟩ =
      none :=
  ⟨virStorageFileParseBackingStoreStr_spec.1 "sda" (by decide),
    virStorageFileParseBackingStoreStr_spec.2.1 ['v', 'd', 'a'] ['1']
      (by decide) (by decide) (by decide),
    virStorageFileParseBackingStoreStr_spec.2.2.1 ['v', 'd', 'a'] ['x', ']']
      (by decide)
      (by
        intro ds hdig hne heq
        cases ds with
        | nil => exact hne rfl
        | cons a as =>
          rw [List.cons_append] at heq
          injection heq with ha hrest
          exact absurd (hdig a (List.mem_cons_self a as))
            (by rw [← ha]; decide))⟩

/-- C5: the chain-index wrapper succeeds with index `0` when the name is
absent or parses to index `0`; with a parsed non-zero index it fails exactly
when the parsed target differs from the disk target, and succeeds with that
index when the target matches.  `("vda", "vda[2]") ↦ 2`, `("vda", "sdb[2]")`
fails. -/
theorem virStorageFileParseChainIndex_spec :
    (∀ dt : String, virStorageFileParseChainIndex (some dt) none = some 0) ∧
    (∀ dt n t : String,
       virStorageFileParseBackingStoreStr n = some (t, 0) →
       virStorageFileParseChainIndex (some dt) (some n) = some 0) ∧
    (∀ (dt n t : String) (k : Nat),
       virStorageFileParseBackingStoreStr n = some (t, k) → k ≠ 0 →
       (virStorageFileParseChainIndex (some dt) (some n) = none ↔ t ≠ dt)) ∧
    (∀ (dt n : String) (k : Nat),
       virStorageFileParseBackingStoreStr n = some (dt, k) → k ≠ 0 →
       virStorageFileParseChainIndex (some dt) (some n) = some k) ∧
    (virStorageFileParseChainIndex (some "vda") (some "vda[2]") = some 2 ∧
     virStorageFileParseChainIndex (some "vda") (some "sdb[2]") = none) := by
  refine ⟨fun dt => rfl, ?_, ?_, ?_, by decide, by decide⟩
  · intro dt n t hp
    simp [virStorageFileParseChainIndex, hp]
  · intro dt n t k hp hk
    by_cases ht : t = dt
    · subst ht
      simp [virStorageFileParseChainIndex, hp, hk]
    · simp [virStorageFileParseChainIndex, hp, hk, ht]
  · intro dt n k hp hk
    simp [virStorageFileParseChainIndex, hp, hk]

/-- Witness for C5: absent name, zero-index name, mismatched target,
matching target, and the two concrete evaluations. -/
theorem virStorageFileParseChainIndex_spec_witness :
    virStorageFileParseChainIndex (some "vda") none = some 0 ∧
    virStorageFileParseChainIndex (some "vda") (some "vda[0]") = some 0 ∧
    (virStorageFileParseChainIndex (some "vda") (some "sdb[2]") = none ↔
      "sdb" ≠ "vda") ∧
    virStorageFileParseChainIndex (some "vda") (some "vda[2]") = some 2 :=
  ⟨virStorageFileParseChainIndex_spec.1 "vda",
    virStorageFileParseChainIndex_spec.2.1 "vda" "vda[0]" "vda" (by decide),
    virStorageFileParseChainIndex_spec.2.2.1 "vda" "sdb[2]" "sdb" 2
      (by decide) (by decide),
    virStorageFileParseChainIndex_spec.2.2.2.1 "vda" "vda[2]" 2 (by decide)
      (by decide)⟩

/-- C9: a name string that fails to parse is not propagated as an error by
the chain-index wrapper: it succeeds with index `0`, exactly as if no name
had been supplied; concretely for the malformed `"vda[x]"`. -/
theorem virStorageFileParseChainIndex_ignores_parse_failure :
    (∀ dt n : String, virStorageFileParseBackingStoreStr n = none →
       virStorageFileParseChainIndex (some dt) (some n) = some 0) ∧
    (virStorageFileParseBackingStoreStr "vda[x]" = none ∧
     virStorageFileParseChainIndex (some "vda") (some "vda[x]") = some 0 ∧
     virStorageFileParseChainIndex (some "vda") none = some 0) := by
  refine ⟨?_, by decide, by decide, by decide⟩
  intro dt n hp
  simp [virStorageFileParseChainIndex, hp]

/-- Witness for C9 at the malformed name `"vda[x]"`. -/
theorem virStorageFileParseChainIndex_ignores_parse_failure_witness :
    virStorageFileParseChainIndex (some "vda") (some "vda[x]") = some 0 :=
  virStorageFileParseChainIndex_ignores_parse_failure.1 "vda" "vda[x]"
    (by decide)

/-! ## Claim theorems: classification predicates -/

/-- A zeroed storage-source node, used as the base of concrete examples. -/
def baseSource : VirStorageSource :=
  { type := VirStorageType.none
    protocol := VirStorageNetProtocol.none
    path := none
    volume := none
    snapshot := none
    hosts := []
    srcpool := none
    nvme := none
    encryption := none
    perms := none }

/-- C6: `virStorageSourceGetActualType` returns the declared type except for
a `volume` node whose pool reference carries a resolved actual type other
than `none`, in which case it returns that resolved type; in particular a
volume node resolved to `block` reports `block`. -/
theorem virStorageSourceGetActualType_spec :
    (∀ (d : VirStorageSource) (sp : VirStorageSourcePoolDef),
       d.srcpool = some sp → d.type = VirStorageType.volume →
       sp.actualtype ≠ VirStorageType.none →
       virStorageSourceGetActualType d = sp.actualtype) ∧
    (∀ d : VirStorageSource, d.type ≠ VirStorageType.volume →
       virStorageSourceGetActualType d = d.type) ∧
    (∀ d : VirStorageSource, d.srcpool = none →
       virStorageSourceGetActualType d = d.type) ∧
    (∀ (d : VirStorageSource) (sp : VirStorageSourcePoolDef),
       d.srcpool = some sp → sp.actualtype = VirStorageType.none →
       virStorageSourceGetActualType d = d.type) ∧
    (∀ (d : VirStorageSource) (sp : VirStorageSourcePoolDef),
       d.srcpool = some sp → d.type = VirStorageType.volume →
       sp.actualtype = VirStorageType.block →
       virStorageSourceGetActualType d = VirStorageType.block) := by
  refine ⟨?_, ?_, ?_, ?_, ?_⟩
  · intro d sp hsp ht ha
    simp [virStorageSourceGetActualType, hsp, ht, ha]
  · intro d ht
    unfold virStorageSourceGetActualType
    cases hsp : d.srcpool with
    | none => rfl
    | some sp =>
      show (if d.type = VirStorageType.volume ∧
          sp.actualtype ≠ VirStorageType.none then sp.actualtype else d.type) =
        d.type
      exact if_neg (fun hc => ht hc.1)
  · intro d hsp
    simp [virStorageSourceGetActualType, hsp]
  · intro d sp hsp ha
    simp [virStorageSourceGetActualType, hsp, ha]
  · intro d sp hsp ht ha
    simp [virStorageSourceGetActualType, hsp, ht, ha]

/-- Witness for C6: a volume node whose pool reference resolved to `block`
reports `block`, and a plain file node reports `file`. -/
theorem virStorageSourceGetActualType_spec_witness :
    virStorageSourceGetActualType
      { baseSource with
        type := VirStorageType.volume
        srcpool := some { actualtype := VirStorageType.block } } =
      VirStorageType.block ∧
    virStorageSourceGetActualType
      { baseSource with type := VirStorageType.file } = VirStorageType.file :=
  ⟨virStorageSourceGetActualType_spec.2.2.2.2
      { baseSource with
        type := VirStorageType.volume
        srcpool := some { actualtype := VirStorageType.block } }
      { actualtype := VirStorageType.block } rfl rfl rfl,
    virStorageSourceGetActualType_spec.2.1
      { baseSource with type := VirStorageType.file } (by decide)⟩

theorem hostsMatch_refl (l : List VirStorageNetHostDef) :
    hostsMatch l l = true := by
  induction l with
  | nil => rfl
  | cons a as ih => simp [hostsMatch, ih]

theorem virStorageSourceNVMeDefIsEqual_refl
    (o : Option VirStorageSourceNVMeDef) :
    virStorageSourceNVMeDefIsEqual o o = true := by
  cases o <;> simp [virStorageSourceNVMeDefIsEqual]

/-- The network node of the C7 counterexample: NBD with one TCP host. -/
def locA : VirStorageSource :=
  { baseSource with
    type := VirStorageType.network
    protocol := VirStorageNetProtocol.nbd
    hosts := [{ name := some "h", port := 10809,
                transport := VirStorageNetHostTransport.tcp, socket := none }] }

/-- Same node with only the network sub-protocol changed. -/
def locB : VirStorageSource := { locA with protocol := VirStorageNetProtocol.http }

/-- An NVMe descriptor with `managed = yes`. -/
def nvmDefA : VirStorageSourceNVMeDef :=
  { namespc := 1, managed := VirTristateBool.yes
    pciAddr := { domain := 0, bus := 1, slot := 2, function := 3 } }

/-- The same NVMe descriptor with only the managed flag changed. -/
def nvmDefB : VirStorageSourceNVMeDef :=
  { nvmDefA with managed := VirTristateBool.no }

/-- The NVMe node of the C7 counterexample. -/
def nvmA : VirStorageSource :=
  { baseSource with type := VirStorageType.nvme, nvme := some nvmDefA }

/-- Same NVMe node with only the managed flag of the descriptor changed. -/
def nvmB : VirStorageSource := { nvmA with nvme := some nvmDefB }

/-- Counterexample to C7 as stated: `locA`/`locB` agree on every addressing
field the claim lists (actual type, path, volume, snapshot, host entries),
are not both empty, yet compare unequal because the network sub-protocol —
not listed — is also compared; likewise `nvmA`/`nvmB` agree on namespace and
PCI address yet compare unequal because the managed flag is also compared. -/
theorem virStorageSourceIsSameLocation_claim_counterexample :
    (¬(virStorageSourceIsEmpty locA = true ∧
        virStorageSourceIsEmpty locB = true) ∧
      virStorageSourceGetActualType locA = virStorageSourceGetActualType locB ∧
      locA.path = locB.path ∧ locA.volume = locB.volume ∧
      locA.snapshot = locB.snapshot ∧
      hostsMatch locA.hosts locB.hosts = true ∧
      virStorageSourceIsSameLocation locA locB = false) ∧
    (¬(virStorageSourceIsEmpty nvmA = true ∧
        virStorageSourceIsEmpty nvmB = true) ∧
      virStorageSourceGetActualType nvmA = virStorageSourceGetActualType nvmB ∧
      nvmA.path = nvmB.path ∧ nvmA.volume = nvmB.volume ∧
      nvmA.snapshot = nvmB.snapshot ∧
      nvmA.nvme = some nvmDefA ∧ nvmB.nvme = some nvmDefB ∧
      nvmDefA.namespc = nvmDefB.namespc ∧ nvmDefA.pciAddr = nvmDefB.pciAddr ∧
      virStorageSourceIsSameLocation nvmA nvmB = false) := by
  decide

/-- C7 as amended: both-empty nodes always compare equal; otherwise the
comparison is exactly agreement of actual type, path, volume, snapshot, for
`network`-type nodes additionally the sub-protocol and all host entries
(transport, port, name, socket) in order, and for `nvme`-type nodes the
namespace, managed flag and PCI address; metadata such as encryption or
permissions never affects the result. -/
theorem virStorageSourceIsSameLocation_spec :
    (∀ (s : VirStorageSource) (e1 e2 p1 p2 : Option Nat),
       virStorageSourceIsSameLocation
         { s with encryption := e1, perms := p1 }
         { s with encryption := e2, perms := p2 } = true) ∧
    (∀ a b : VirStorageSource,
       (virStorageSourceIsEmpty a = true ∧ virStorageSourceIsEmpty b = true →
         virStorageSourceIsSameLocation a b = true) ∧
       (¬(virStorageSourceIsEmpty a = true ∧ virStorageSourceIsEmpty b = true) →
         (virStorageSourceIsSameLocation a b = true ↔
           (virStorageSourceGetActualType a = virStorageSourceGetActualType b ∧
            a.path = b.path ∧ a.volume = b.volume ∧ a.snapshot = b.snapshot ∧
            (a.type = VirStorageType.network →
              a.protocol = b.protocol ∧ a.hosts.length = b.hosts.length ∧
              hostsMatch a.hosts b.hosts = true) ∧
            (a.type = VirStorageType.nvme →
              virStorageSourceNVMeDefIsEqual a.nvme b.nvme = true))))) := by
  constructor
  · intro s e1 e2 p1 p2
    unfold virStorageSourceIsSameLocation
    split_ifs with h1 h2 h3 h4 h5 h6 <;>
      simp_all [virStorageSourceGetActualType, virStorageSourceIsEmpty,
        virStorageSourceIsLocalStorage, hostsMatch_refl,
        virStorageSourceNVMeDefIsEqual_refl]
  · intro a b
    constructor
    · intro hemp
      unfold virStorageSourceIsSameLocation
      rw [if_pos hemp]
    · intro hne
      unfold virStorageSourceIsSameLocation
      rw [if_neg hne]
      split_ifs with h2 h3 h4 h5 h6 <;>
        constructor <;> intro hh <;> push_neg at * <;> simp_all

/-- Witness for C7 as amended: metadata-independence at a file node, and the
both-empty case at two `none`-type nodes with different other fields. -/
theorem virStorageSourceIsSameLocation_spec_witness :
    virStorageSourceIsSameLocation
      { { baseSource with type := VirStorageType.file, path := some "/p" } with
        encryption := some 1, perms := some 1 }
      { { baseSource with type := VirStorageType.file, path := some "/p" } with
        encryption := some 2, perms := none } = true ∧
    virStorageSourceIsSameLocation baseSource
      { baseSource with path := some "x", volume := some "v" } = true :=
  ⟨virStorageSourceIsSameLocation_spec.1
      { baseSource with type := VirStorageType.file, path := some "/p" }
      (some 1) (some 2) (some 1) none,
    (virStorageSourceIsSameLocation_spec.2 baseSource
      { baseSource with path := some "x", volume := some "v" }).1
      ⟨by decide, by decide⟩⟩

/-! ## Claim theorems: default ports -/

/-- The RBD node of the C8 counterexample: one TCP host with port `0`. -/
def rbdSource : VirStorageSource :=
  { baseSource with
    type := VirStorageType.network
    protocol := VirStorageNetProtocol.rbd
    hosts := [{ name := some "mon", port := 0,
                transport := VirStorageNetHostTransport.tcp, socket := none }] }

/-- Counterexample to C8 as stated: the RBD protocol has no default port
(`0`), so a TCP host entry with unset port keeps port `0` — left ambiguous —
after `virStorageSourceNetworkAssignDefaultPorts`. -/
theorem virStorageSourceNetworkAssignDefaultPorts_claim_counterexample :
    virStorageSourceNetworkDefaultPort VirStorageNetProtocol.rbd = 0 ∧
    (virStorageSourceNetworkAssignDefaultPorts rbdSource).hosts.map
      (fun h => h.port) = [0] := by
  decide

/-- C8 as amended: after normalization every host entry is unchanged unless
it uses the TCP transport with port `0`, in which case it receives the
per-protocol default port; that default is non-zero for every protocol
except `rbd`, `nfs`, `none` and `last`, which provide no default (`0`). -/
theorem virStorageSourceNetworkAssignDefaultPorts_spec :
    (∀ (src : VirStorageSource) (i : Nat) (h0 : VirStorageNetHostDef),
       src.hosts[i]? = some h0 →
       (virStorageSourceNetworkAssignDefaultPorts src).hosts[i]? = some
         (if h0.transport = VirStorageNetHostTransport.tcp ∧ h0.port = 0 then
           { h0 with port := virStorageSourceNetworkDefaultPort src.protocol }
         else h0)) ∧
    (∀ p : VirStorageNetProtocol,
       p ≠ VirStorageNetProtocol.rbd → p ≠ VirStorageNetProtocol.nfs →
       p ≠ VirStorageNetProtocol.none → p ≠ VirStorageNetProtocol.last →
       virStorageSourceNetworkDefaultPort p ≠ 0) := by
  constructor
  · intro src i h0 hget
    simp [virStorageSourceNetworkAssignDefaultPorts, List.getElem?_map, hget]
  · intro p h1 h2 h3 h4
    cases p <;> simp_all [virStorageSourceNetworkDefaultPort]

/-- Witness for C8 as amended: an NBD TCP host with unset port receives the
NBD default `10809`, which is non-zero. -/
theorem virStorageSourceNetworkAssignDefaultPorts_spec_witness :
    (virStorageSourceNetworkAssignDefaultPorts
      { baseSource with
        type := VirStorageType.network
        protocol := VirStorageNetProtocol.nbd
        hosts := [{ name := some "h", port := 0,
                    transport := VirStorageNetHostTransport.tcp,
                    socket := none }] }).hosts[0]? =
      some { name := some "h", port := 10809,
             transport := VirStorageNetHostTransport.tcp, socket := none } ∧
    virStorageSourceNetworkDefaultPort VirStorageNetProtocol.nbd ≠ 0 :=
  ⟨virStorageSourceNetworkAssignDefaultPorts_spec.1
      { baseSource with
        type := VirStorageType.network
        protocol := VirStorageNetProtocol.nbd
        hosts := [{ name := some "h", port := 0,
                    transport := VirStorageNetHostTransport.tcp,
                    socket := none }] } 0
      { name := some "h", port := 0,
        transport := VirStorageNetHostTransport.tcp, socket := none } rfl,
    virStorageSourceNetworkAssignDefaultPorts_spec.2 VirStorageNetProtocol.nbd
      (by decide) (by decide) (by decide) (by decide)⟩

/-! ## Claim theorems: cookie validation -/

/-- C10: the begins-with-quote rule reads the last character, so a value of
exactly one `"` satisfies both quote conditions with the same character and
is accepted, and an empty value is accepted, for any well-formed cookie
name. -/
theorem virStorageSourceNetCookieValidate_degenerate_quote
    (name : String) (h0 : name ≠ "")
    (h1 : virStringHasChars name virStorageSourceCookieValueInvalidChars = false)
    (h2 : virStringHasChars name virStorageSourceCookieNameInvalidChars = false) :
    virStorageSourceNetCookieValidate name "\"" = true ∧
    virStorageSourceNetCookieValidate name "" = true := by
  constructor <;>
    · unfold virStorageSourceNetCookieValidate
      rw [if_neg h0, if_neg (by simp [h1, h2])]
      decide

/-- Witness for C10 at the cookie name `"a"`. -/
theorem virStorageSourceNetCookieValidate_degenerate_quote_witness :
    virStorageSourceNetCookieValidate "a" "\"" = true ∧
    virStorageSourceNetCookieValidate "a" "" = true :=
  virStorageSourceNetCookieValidate_degenerate_quote "a" (by decide)
    (by decide) (by decide)

end VirStorage
